import Mathlib

/-!
Verification development for the Transcriptland agent-orchestration core.

The TypeScript sources are shallowly embedded: each agent method becomes a
Lean function over explicit inputs; the outcome of the one network call a
method performs (the LLM completion or stream) is passed in as an explicit
`Except`/chunk-list value, and the entries the method hands to the
interaction logger are returned as a list of events.  The JavaScript `Map`
is embedded as an insertion-ordered association list with set/delete
methods that mirror `Map.set`/`Map.delete`.  `JSON.parse` is an external
JavaScript builtin, so it is modelled as an explicit oracle parameter
`String → Option Json`; everything done with its result (property lookup,
key fallback, array mapping) is embedded from the repository code.
Timestamps (`Date.now()`, `new Date()`) are passed in as a `now : Nat`
parameter.  Log entries carry the data the claims speak about (the agent
name, role id, response full text and error message); prompt text, model
id, duration and token usage are elided since no claim mentions them.
-/

/-- A JSON value as produced by `JSON.parse`.  Numbers are embedded as
`Int` (no claim depends on fractional numbers).  Object fields keep
insertion order; `JSON.parse` keeps the last duplicate key, and lookups in
this development are only applied to oracle-supplied objects whose keys
are distinct, so a first-match lookup is faithful. -/
inductive Json where
  | null : Json
  | bool (b : Bool) : Json
  | num (n : Int) : Json
  | str (s : String) : Json
  | arr (xs : List Json) : Json
  | obj (fields : List (String × Json)) : Json

/-- JavaScript truthiness of a JSON value (`undefined` is represented as
`Option.none` at use sites). -/
def jsTruthy : Json → Bool
  | Json.null => false
  | Json.bool b => b
  | Json.num n => n != 0
  | Json.str s => s != ""
  | Json.arr _ => true
  | Json.obj _ => true

/-- `mapGet m k` is `m.get(k)` on a JavaScript `Map` embedded as an
insertion-ordered association list (`undefined` becomes `none`). -/
def mapGet {α : Type} : List (String × α) → String → Option α
  | [], _ => none
  | (k', v) :: rest, k => if k' = k then some v else mapGet rest k

/-- `mapSet m k v` is `m.set(k, v)`: an existing key is updated in place,
a fresh key is appended at the end, as JavaScript `Map` insertion order
prescribes. -/
def mapSet {α : Type} : List (String × α) → String → α → List (String × α)
  | [], k, v => [(k, v)]
  | (k', v') :: rest, k, v =>
      if k' = k then (k', v) :: rest else (k', v') :: mapSet rest k v

/-- `mapDelete m k` is `m.delete(k)` (dropping the entry for `k`). -/
def mapDelete {α : Type} : List (String × α) → String → List (String × α)
  | [], _ => []
  | (k', v') :: rest, k =>
      if k' = k then mapDelete rest k else (k', v') :: mapDelete rest k

theorem mapGet_set_self {α : Type} (m : List (String × α)) (k : String) (v : α) :
    mapGet (mapSet m k v) k = some v := by
  induction m with
  | nil => simp [mapGet, mapSet]
  | cons p rest ih =>
      by_cases h : p.1 = k
      · simp [mapSet, mapGet, h]
      · simp [mapSet, mapGet, h, ih]

theorem mapGet_set_other {α : Type} (m : List (String × α)) (k k' : String) (v : α)
    (h : k' ≠ k) : mapGet (mapSet m k v) k' = mapGet m k' := by
  have hk : ¬ k = k' := fun hh => h hh.symm
  induction m with
  | nil => simp [mapGet, mapSet, hk]
  | cons p rest ih =>
      by_cases hp : p.1 = k
      · subst hp
        simp [mapSet, mapGet, hk]
      · by_cases hp' : p.1 = k'
        · simp [mapSet, mapGet, hp, hp', hk, h]
        · simp [mapSet, mapGet, hp, hp', ih]

theorem mapGet_delete_self {α : Type} (m : List (String × α)) (k : String) :
    mapGet (mapDelete m k) k = none := by
  induction m with
  | nil => simp [mapGet, mapDelete]
  | cons p rest ih =>
      by_cases h : p.1 = k
      · simp [mapDelete, h, ih]
      · simp [mapDelete, mapGet, h, ih]

/-- `mapSet` on a key absent from the map appends the new entry. -/
theorem mapSet_fresh {α : Type} (m : List (String × α)) (k : String) (v : α)
    (h : mapGet m k = none) : mapSet m k v = m ++ [(k, v)] := by
  induction m with
  | nil => simp [mapSet]
  | cons p rest ih =>
      by_cases hp : p.1 = k
      · simp [mapGet, hp] at h
      · simp [mapGet, hp] at h
        simp [mapSet, hp, ih h]

/-- Lookup distributes over append: the left list is consulted first. -/
theorem mapGet_append {α : Type} (l1 l2 : List (String × α)) (k : String) :
    mapGet (l1 ++ l2) k =
      (match mapGet l1 k with
       | some v => some v
       | none => mapGet l2 k) := by
  induction l1 with
  | nil => simp [mapGet]
  | cons p rest ih =>
      by_cases hp : p.1 = k
      · simp [mapGet, hp]
      · simp [mapGet, hp, ih]

/-- Updating a key that sits at the junction of an append, when the prefix
does not contain it, rewrites just that entry. -/
theorem mapSet_append_mid {α : Type} (l1 l3 : List (String × α)) (k : String) (a v : α)
    (h : mapGet l1 k = none) :
    mapSet (l1 ++ (k, a) :: l3) k v = l1 ++ (k, v) :: l3 := by
  induction l1 with
  | nil => simp [mapSet]
  | cons p rest ih =>
      by_cases hp : p.1 = k
      · simp [mapGet, hp] at h
      · simp [mapGet, hp] at h
        simp [mapSet, hp, ih h]

theorem mapGet_append_mid {α : Type} (l1 l3 : List (String × α)) (k : String) (a : α)
    (h : mapGet l1 k = none) :
    mapGet (l1 ++ (k, a) :: l3) k = some a := by
  rw [mapGet_append]
  simp [h, mapGet]

/-- JavaScript whitespace as used by `String.prototype.trim` and the regex
class `\s`, restricted to the ASCII range (the Unicode space classes play
no role in any claim or counterexample). -/
def isJsSpace (c : Char) : Bool :=
  c = ' ' || c = '\t' || c = '\n' || c = '\r' || c = '\x0b' || c = '\x0c'

/-- Drop the maximal run of JavaScript whitespace from both ends of a
character list: the embedding of `String.prototype.trim`. -/
def jsTrimChars (cs : List Char) : List Char :=
  ((cs.dropWhile isJsSpace).reverse.dropWhile isJsSpace).reverse

/-- `String.prototype.trim` on strings. -/
def jsTrim (s : String) : String :=
  String.mk (jsTrimChars s.toList)

/-- Left-fold concatenation of a chunk list, exactly the accumulation
`fullResponse += chunk` performed chunk by chunk. -/
def sJoin (chunks : List String) : String :=
  chunks.foldl (fun acc c => acc ++ c) ""

/-- The re-yield loop shared by every streaming agent method:
`for await (const chunk of stream) { fullResponse += chunk; yield chunk }`.
Returns the chunks yielded to the caller (in delivery order) and the
accumulated `fullResponse`.  The chunk list is the successful stream; the
claims about this loop condition on the generation completing without
error. -/
def consumeStream (chunks : List String) : List String × String :=
  chunks.foldl (fun acc c => (acc.1 ++ [c], acc.2 ++ c)) ([], "")

theorem consumeStream_go (chunks : List String) :
    ∀ (ys : List String) (full : String),
      chunks.foldl (fun acc c => (acc.1 ++ [c], acc.2 ++ c)) (ys, full)
        = (ys ++ chunks, chunks.foldl (fun acc c => acc ++ c) full) := by
  induction chunks with
  | nil => intro ys full; simp
  | cons c rest ih =>
      intro ys full
      simp only [List.foldl_cons]
      rw [ih (ys ++ [c]) (full ++ c)]
      simp

/-- The re-yield loop yields exactly the stream chunks and accumulates
their in-order concatenation. -/
theorem consumeStream_spec (chunks : List String) :
    consumeStream chunks = (chunks, sJoin chunks) := by
  unfold consumeStream sJoin
  rw [consumeStream_go chunks [] ""]
  simp

/-- One entry handed to the interaction logger.  `request` is emitted via
`agentLogger.logRequest` before dispatch, `response` via
`agentLogger.logResponse` with the full response text, `error` via
`agentLogger.logError` with the extracted message.  Prompt text, model id,
duration and token usage are elided: no claim mentions them. -/
inductive LogEvent where
  | request (agentName roleId : String) : LogEvent
  | response (content : String) : LogEvent
  | error (agentName roleId message : String) : LogEvent
deriving DecidableEq

/-- The value a rejected promise carries: a JavaScript `Error` (or one of
its subclasses) holding a message, or a non-`Error` value.  The message
texts chosen for engine-raised `TypeError`/`SyntaxError` are fixed
stand-ins (the literal text is engine specific); no claim depends on
them. -/
inductive RejectionReason where
  | jsError (msg : String) : RejectionReason
  | typeError (msg : String) : RejectionReason
  | syntaxError (msg : String) : RejectionReason
  | nonErrorValue : RejectionReason
deriving DecidableEq

/-- `error instanceof Error ? error.message : 'Unknown error'`, the
message extraction every agent performs before calling `logError`. -/
def errMessage : RejectionReason → String
  | RejectionReason.jsError m => m
  | RejectionReason.typeError m => m
  | RejectionReason.syntaxError m => m
  | RejectionReason.nonErrorValue => "Unknown error"

/-- Token usage as surfaced by `llmService.generateCompletion`. -/
structure TokenUsage where
  prompt_tokens : Nat
  completion_tokens : Nat
  total_tokens : Nat

/-- The result of a non-streaming `llmService.generateCompletion` call. -/
structure Completion where
  content : String
  usage : Option TokenUsage

/-- Result of running one streaming agent method to completion: the chunks
re-yielded to the caller and the log entries emitted. -/
structure StreamRun where
  yielded : List String
  events : List LogEvent

/-- The full text carried by the first `response` entry among the emitted
log events (the terminal response entry of the run). -/
def loggedResponse : List LogEvent → Option String
  | [] => none
  | LogEvent.request _ _ :: rest => loggedResponse rest
  | LogEvent.response c :: _ => some c
  | LogEvent.error _ _ _ :: rest => loggedResponse rest

namespace PlannerAgent

/-- `PlannerAgent.analyzeContextStream` on a stream that completes: logs a
request, re-yields every chunk, then logs `fullResponse.trim()` as the
terminal response entry. -/
def analyzeContextStream (chunks : List String) : StreamRun :=
  let r := consumeStream chunks
  { yielded := r.1,
    events := [LogEvent.request "Planner Agent" "planner",
               LogEvent.response (jsTrim r.2)] }

/-- `PlannerAgent.proposeObjectiveStream`: same loop, terminal response
entry again carries `fullResponse.trim()`. -/
def proposeObjectiveStream (chunks : List String) : StreamRun :=
  let r := consumeStream chunks
  { yielded := r.1,
    events := [LogEvent.request "Planner Agent" "planner",
               LogEvent.response (jsTrim r.2)] }

/-- `PlannerAgent.generateFrameworkStream`: terminal response entry
carries the untrimmed `fullResponse`. -/
def generateFrameworkStream (chunks : List String) : StreamRun :=
  let r := consumeStream chunks
  { yielded := r.1,
    events := [LogEvent.request "Planner Agent" "planner",
               LogEvent.response r.2] }

end PlannerAgent

namespace WriterAgent

/-- `WriterAgent.analyzeSegmentStream`: terminal response entry carries
the untrimmed `fullResponse`. -/
def analyzeSegmentStream (chunks : List String) : StreamRun :=
  let r := consumeStream chunks
  { yielded := r.1,
    events := [LogEvent.request "Writer Agent" "writer",
               LogEvent.response r.2] }

end WriterAgent

namespace CriticAgent

/-- `CriticAgent.evaluateSegmentStream`: terminal response entry carries
the untrimmed `fullResponse`. -/
def evaluateSegmentStream (chunks : List String) : StreamRun :=
  let r := consumeStream chunks
  { yielded := r.1,
    events := [LogEvent.request "Critic Agent" "critic",
               LogEvent.response r.2] }

end CriticAgent

namespace GapAnalysisAgent

/-- `GapAnalysisAgent.identifyGaps`: terminal response entry carries the
untrimmed `fullResponse`. -/
def identifyGaps (chunks : List String) : StreamRun :=
  let r := consumeStream chunks
  { yielded := r.1,
    events := [LogEvent.request "Gap Analysis Agent" "identify-gaps",
               LogEvent.response r.2] }

end GapAnalysisAgent

/-- Case-insensitive prefix test on character lists, the embedding of
matching a literal under a JavaScript `/i` regex flag. -/
def ciStartsWith : List Char → List Char → Bool
  | [], _ => true
  | _ :: _, [] => false
  | p :: ps, c :: cs => (p.toLower == c.toLower) && ciStartsWith ps cs

/-- Case-sensitive prefix test on character lists. -/
def litHeadMatches : List Char → List Char → Bool
  | [], _ => true
  | _ :: _, [] => false
  | p :: ps, c :: cs => (p == c) && litHeadMatches ps cs

/-- First-match scanning of a regex: try the matcher at every position of
the input, left to right (including the end-of-input position), and return
the first hit. -/
def scanFirst {α : Type} (f : List Char → Option α) : List Char → Option α
  | [] => f []
  | c :: cs =>
    match f (c :: cs) with
    | some r => some r
    | none => scanFirst f cs

/-- Characters up to (excluding) the first position where `stop` begins,
case-insensitively; the whole input when `stop` never occurs.  This is the
lazy `[\s\S]*?` bounded by a lookahead `(?=stop|$)`. -/
def takeUntilCI (stop : List Char) : List Char → List Char
  | [] => []
  | c :: cs => if ciStartsWith stop (c :: cs) then [] else c :: takeUntilCI stop cs

/-- The suffix starting at the first case-sensitive occurrence of `pat`,
or `none` when `pat` does not occur. -/
def dropUntilLit (pat : List Char) : List Char → Option (List Char)
  | [] => if litHeadMatches pat [] then some [] else none
  | c :: cs =>
    if litHeadMatches pat (c :: cs) then some (c :: cs) else dropUntilLit pat cs

/-- Characters up to (excluding) the first case-sensitive occurrence of
`stop`; `none` when `stop` never occurs (the regex then has no match). -/
def takeUntilLit (stop : List Char) : List Char → Option (List Char)
  | [] => if litHeadMatches stop [] then some [] else none
  | c :: cs =>
    if litHeadMatches stop (c :: cs) then some []
    else
      match takeUntilLit stop cs with
      | some r => some (c :: r)
      | none => none

/-- `String.prototype.split` at newline characters: trailing separators
produce empty fields, as in JavaScript. -/
def splitLinesAux : List Char → List Char → List (List Char)
  | [], acc => [acc.reverse]
  | c :: cs, acc =>
      if c = '\n' then acc.reverse :: splitLinesAux cs []
      else splitLinesAux cs (c :: acc)

def splitLines (cs : List Char) : List (List Char) :=
  splitLinesAux cs []

/-- Value of a maximal digit run, as `parseInt(digits, 10)`. -/
def digitsToNat (ds : List Char) : Nat :=
  ds.foldl (fun n c => n * 10 + (c.toNat - '0'.toNat)) 0

def upperStr (s : String) : String :=
  String.mk (s.toList.map Char.toUpper)

/-- The opening and closing brace characters, named to keep JSON sample
text readable. -/
def lbrace : Char := Char.ofNat 123

def rbrace : Char := Char.ofNat 125

namespace CriticAgent

/-- Attempt of `/## Source Alignment\s+(PASS|FAIL)/i` at one position:
the literal, at least one whitespace character (greedy `\s+` is exact
here, as neither alternative starts with whitespace), then `PASS` tried
before `FAIL`; the capture is the token as it appears in the input. -/
def matchAlignmentAt (cs : List Char) : Option String :=
  if ciStartsWith ("## Source Alignment".toList) cs then
    let rest := cs.drop ("## Source Alignment".toList.length)
    let ws := rest.takeWhile isJsSpace
    if ws.isEmpty then none
    else
      let rest2 := rest.drop ws.length
      if ciStartsWith ("PASS".toList) rest2 then some (String.mk (rest2.take 4))
      else if ciStartsWith ("FAIL".toList) rest2 then some (String.mk (rest2.take 4))
      else none
  else none

/-- `sourceAlignmentMatch?.[1]?.toUpperCase() === 'PASS'`: `true` exactly
when a match exists and its token upper-cases to `PASS`; no match yields
`false` (absence defaults to FAIL, never to PASS). -/
def sourceAlignmentOf (content : String) : Bool :=
  match scanFirst matchAlignmentAt content.toList with
  | some tok => upperStr tok == "PASS"
  | none => false

/-- `/## Source Alignment[\s\S]*?(?=## Objective Fulfillment|$)/i`: from
the first occurrence of the heading, lazily up to the next
`## Objective Fulfillment` heading or the end of input. -/
def issuesSectionOf (content : String) : Option (List Char) :=
  (scanFirst
      (fun cs =>
        if ciStartsWith ("## Source Alignment".toList) cs then some cs else none)
      content.toList).map
    (fun suffix =>
      suffix.take ("## Source Alignment".toList.length) ++
        takeUntilCI ("## Objective Fulfillment".toList)
          (suffix.drop ("## Source Alignment".toList.length)))

/-- One line of the issues section: trimmed, and when it begins with a
bullet (`-`, `•` or `*`) followed by whitespace, the bullet marker and the
whitespace run are removed (`line.trim().replace(/^[-•*]\s+/, '')`). -/
def bulletIssue (line : List Char) : Option String :=
  let t := jsTrimChars line
  match t with
  | [] => none
  | b :: rest =>
    if b = '-' || b = '•' || b = '*' then
      let ws := rest.takeWhile isJsSpace
      if ws.isEmpty then none else some (String.mk (rest.drop ws.length))
    else none

/-- Bullet lines collected from the issues section, only when alignment
already failed (the source guards with `if (!sourceAlignment)`). -/
def sourceAlignmentIssuesOf (content : String) (alignment : Bool) : List String :=
  if alignment then []
  else
    match issuesSectionOf content with
    | none => []
    | some sec => (splitLines sec).filterMap bulletIssue

/-- Attempt of `/Score:\s*(\d+)%?/i` at one position: the literal, any
whitespace, then at least one digit (the greedy `\s*` is exact since a
digit is not whitespace); the capture is the digit run. -/
def matchScoreAt (cs : List Char) : Option (List Char) :=
  if ciStartsWith ("Score:".toList) cs then
    let rest := cs.drop ("Score:".toList.length)
    let rest2 := rest.drop (rest.takeWhile isJsSpace).length
    let ds := rest2.takeWhile Char.isDigit
    if ds.isEmpty then none else some ds
  else none

/-- `scoreMatch ? parseInt(scoreMatch[1], 10) : 0`. -/
def scoreOf (content : String) : Nat :=
  match scanFirst matchScoreAt content.toList with
  | some ds => digitsToNat ds
  | none => 0

/-- Attempt of `/## Improvement Guidance\s+([\s\S]*?)(?=##|$)/i` at one
position: the literal, at least one whitespace character (greedy, exact
because the lazy capture can always extend to the end of input), then the
capture lazily up to the next `##` or the end. -/
def matchGuidanceAt (cs : List Char) : Option (List Char) :=
  if ciStartsWith ("## Improvement Guidance".toList) cs then
    let rest := cs.drop ("## Improvement Guidance".toList.length)
    let ws := rest.takeWhile isJsSpace
    if ws.isEmpty then none
    else some (takeUntilCI ("##".toList) (rest.drop ws.length))
  else none

/-- `guidanceMatch?.[1]?.trim() || 'No specific guidance provided'`. -/
def guidanceOf (content : String) : String :=
  match scanFirst matchGuidanceAt content.toList with
  | some cap =>
      let g := String.mk (jsTrimChars cap)
      if g == "" then "No specific guidance provided" else g
  | none => "No specific guidance provided"

end CriticAgent

/-- Status of one segment analysis (`'pending' | 'complete' | 'error'`). -/
inductive SegmentStatus where
  | pending : SegmentStatus
  | complete : SegmentStatus
  | error : SegmentStatus
deriving DecidableEq

/-- `SegmentAnalysis` as held in the analysis state. -/
structure SegmentAnalysis where
  segmentId : String
  content : String
  status : SegmentStatus
  generatedAt : Option Nat
deriving DecidableEq

/-- `CriticEvaluation` as assembled by `CriticAgent.evaluateSegment`. -/
structure CriticEvaluation where
  segmentId : String
  evaluation : String
  sourceAlignment : Bool
  sourceAlignmentIssues : Option (List String)
  objectiveFulfillmentScore : Nat
  improvementGuidance : String
  suggestions : List String
  generatedAt : Nat
deriving DecidableEq

/-- JavaScript property access `j[k]` restricted to the shapes that occur
here: lookup on an object, a thrown `TypeError` on `null`, and `undefined`
(`none`) on every other value (builtin properties such as `length` are
not among the accessed keys). -/
def jsField (j : Json) (k : String) : Except RejectionReason (Option Json) :=
  match j with
  | Json.null =>
      Except.error (RejectionReason.typeError
        ("Cannot read properties of null (reading " ++ k ++ ")"))
  | Json.obj fields => Except.ok (mapGet fields k)
  | _ => Except.ok none

/-- Property access on a value known not to be `null` (total form). -/
def jsFieldOpt (j : Json) (k : String) : Option Json :=
  match j with
  | Json.obj fields => mapGet fields k
  | _ => none

theorem jsField_of_ne_null (j : Json) (k : String) (h : j ≠ Json.null) :
    jsField j k = Except.ok (jsFieldOpt j k) := by
  cases j with
  | null => exact absurd rfl h
  | bool b => rfl
  | num n => rfl
  | str s => rfl
  | arr xs => rfl
  | obj fields => rfl

/-- Stand-in message for the `TypeError` thrown by
`undefined.map(...)`. -/
def undefinedMapMsg : String :=
  "Cannot read properties of undefined (reading map)"

/-- Stand-in message for the `TypeError` thrown by calling `.map` on a
non-array value. -/
def notFunctionMapMsg : String := "parsed.segments.map is not a function"

/-- Stand-in message for the `SyntaxError` thrown by `JSON.parse`. -/
def jsonSyntaxMsg : String := "Unexpected token in JSON"

/-- One element of the segment list assembled by
`PlannerAgent.generateFramework`: the `id` is freshly minted from the
timestamp and index, and `title`/`objective`/`guidance` are copied
verbatim from the parsed element (`none` when the key is absent — the
source applies no placeholder defaults). -/
structure ParsedSegment where
  id : String
  title : Option Json
  objective : Option Json
  guidance : Option Json
  order : Nat

structure ParsedFrameworkMeta where
  title : String
  created : Nat
  objective : String
  tags : List String

structure ParsedFramework where
  metadata : ParsedFrameworkMeta
  segments : List ParsedSegment

/-- The closed form of one assembled segment for a non-`null` element. -/
def verbatimSegment (now i : Nat) (seg : Json) : ParsedSegment :=
  { id := "segment-" ++ toString now ++ "-" ++ toString i,
    title := jsFieldOpt seg "title",
    objective := jsFieldOpt seg "objective",
    guidance := jsFieldOpt seg "guidance",
    order := i }

def verbatimSegments (now : Nat) : Nat → List Json → List ParsedSegment
  | _, [] => []
  | i, s :: rest => verbatimSegment now i s :: verbatimSegments now (i + 1) rest

/-- `parsed.segments.map((seg: any, index: number) => ({...}))`: each
element is read field by field; accessing a field of a `null` element
throws, aborting the whole assembly. -/
def buildSegments (now : Nat) : Nat → List Json → Except RejectionReason (List ParsedSegment)
  | _, [] => Except.ok []
  | i, s :: rest =>
    match jsField s "title" with
    | Except.error e => Except.error e
    | Except.ok t =>
      match jsField s "objective" with
      | Except.error e => Except.error e
      | Except.ok o =>
        match jsField s "guidance" with
        | Except.error e => Except.error e
        | Except.ok g =>
          match buildSegments now (i + 1) rest with
          | Except.error e => Except.error e
          | Except.ok tail =>
              Except.ok
                ({ id := "segment-" ++ toString now ++ "-" ++ toString i,
                   title := t, objective := o, guidance := g, order := i } :: tail)

theorem buildSegments_ok (now : Nat) :
    ∀ (xs : List Json) (i : Nat), (∀ s ∈ xs, s ≠ Json.null) →
      buildSegments now i xs = Except.ok (verbatimSegments now i xs) := by
  intro xs
  induction xs with
  | nil => intro i _; rfl
  | cons s rest ih =>
      intro i h
      have hs : s ≠ Json.null := h s (List.mem_cons_self s rest)
      have hrest : ∀ x ∈ rest, x ≠ Json.null := fun x hx => h x (List.mem_cons_of_mem s hx)
      simp only [buildSegments, jsField_of_ne_null s _ hs, ih (i + 1) hrest,
        verbatimSegments, verbatimSegment]

/-- `/\{[\s\S]*\}/`: greedy, so the match runs from the first opening
brace to the last closing brace (no match when either is missing or the
last `close` precedes the first `open`). -/
def braceMatch (content : String) : Option String :=
  let cs := content.toList
  match cs.findIdx? (fun c => c = lbrace), cs.reverse.findIdx? (fun c => c = rbrace) with
  | some i, some jr =>
      let j := cs.length - 1 - jr
      if i ≤ j then some (String.mk ((cs.drop i).take (j + 1 - i))) else none
  | _, _ => none

namespace WriterAgent

/-- `WriterAgent.analyzeSegment`: on success, a `complete` analysis with
the trimmed response text; on failure the error is logged and — unlike
the other agent methods — swallowed: the promise still resolves, with a
fallback `SegmentAnalysis` of status `error` and empty content.  The
`Except` in the result type records whether the promise rejects; here it
never does. -/
def analyzeSegment (segmentId : String) (now : Nat)
    (outcome : Except RejectionReason Completion) :
    List LogEvent × Except RejectionReason SegmentAnalysis :=
  match outcome with
  | Except.ok r =>
      ([LogEvent.request "Writer Agent" "writer", LogEvent.response r.content],
        Except.ok { segmentId := segmentId, content := jsTrim r.content,
                    status := SegmentStatus.complete, generatedAt := some now })
  | Except.error e =>
      ([LogEvent.request "Writer Agent" "writer",
        LogEvent.error "Writer Agent" "writer" (errMessage e)],
        Except.ok { segmentId := segmentId, content := "",
                    status := SegmentStatus.error, generatedAt := none })

/-- `WriterAgent.rewriteSegment`: on success the trimmed replacement
content; on failure the error is logged and re-thrown. -/
def rewriteSegment (outcome : Except RejectionReason Completion) :
    List LogEvent × Except RejectionReason String :=
  match outcome with
  | Except.ok r =>
      ([LogEvent.request "Writer Agent" "writer", LogEvent.response r.content],
        Except.ok (jsTrim r.content))
  | Except.error e =>
      ([LogEvent.request "Writer Agent" "writer",
        LogEvent.error "Writer Agent" "writer" (errMessage e)],
        Except.error e)

end WriterAgent

namespace CriticAgent

/-- `CriticAgent.evaluateSegment`: on success the structured response is
parsed into a `CriticEvaluation` (issues become `none` when the collected
list is empty, mirroring `issues.length > 0 ? issues : undefined`); on
failure the error is logged and re-thrown. -/
def evaluateSegment (segmentId : String) (now : Nat)
    (outcome : Except RejectionReason Completion) :
    List LogEvent × Except RejectionReason CriticEvaluation :=
  match outcome with
  | Except.ok r =>
      let alignment := sourceAlignmentOf r.content
      let issues := sourceAlignmentIssuesOf r.content alignment
      ([LogEvent.request "Critic Agent" "critic", LogEvent.response r.content],
        Except.ok
          { segmentId := segmentId,
            evaluation := jsTrim r.content,
            sourceAlignment := alignment,
            sourceAlignmentIssues := if issues.length > 0 then some issues else none,
            objectiveFulfillmentScore := scoreOf r.content,
            improvementGuidance := guidanceOf r.content,
            suggestions := [],
            generatedAt := now })
  | Except.error e =>
      ([LogEvent.request "Critic Agent" "critic",
        LogEvent.error "Critic Agent" "critic" (errMessage e)],
        Except.error e)

end CriticAgent

namespace PlannerAgent

/-- `PlannerAgent.generateFramework`: logs the request; on a failed
completion logs the error and re-throws.  On success it logs the response,
extracts the brace-delimited JSON region, parses it with the `jsonParse`
oracle (standing for `JSON.parse`), and maps `parsed.segments` — only the
lowercase key — into segments whose fields are copied verbatim.  Every
throw inside the `try` block (no JSON region, a parse failure, a missing
or non-array `segments`, a `null` element) is caught once, logged as an
error entry, and re-thrown. -/
def generateFramework (jsonParse : String → Option Json) (now : Nat)
    (contextUnderstanding analysisObjective : String) (metadataTags : List String)
    (outcome : Except RejectionReason Completion) :
    List LogEvent × Except RejectionReason ParsedFramework :=
  let req := LogEvent.request "Planner Agent" "planner"
  let errEv := fun (m : String) => LogEvent.error "Planner Agent" "planner" m
  match outcome with
  | Except.error e => ([req, errEv (errMessage e)], Except.error e)
  | Except.ok r =>
    match braceMatch r.content with
    | none =>
        ([req, LogEvent.response r.content, errEv "Failed to parse framework response"],
          Except.error (RejectionReason.jsError "Failed to parse framework response"))
    | some js =>
      match jsonParse js with
      | none =>
          ([req, LogEvent.response r.content, errEv jsonSyntaxMsg],
            Except.error (RejectionReason.syntaxError jsonSyntaxMsg))
      | some parsed =>
        match jsField parsed "segments" with
        | Except.error e =>
            ([req, LogEvent.response r.content, errEv (errMessage e)], Except.error e)
        | Except.ok none =>
            ([req, LogEvent.response r.content, errEv undefinedMapMsg],
              Except.error (RejectionReason.typeError undefinedMapMsg))
        | Except.ok (some (Json.arr xs)) =>
          match buildSegments now 0 xs with
          | Except.error e =>
              ([req, LogEvent.response r.content, errEv (errMessage e)], Except.error e)
          | Except.ok segs =>
              ([req, LogEvent.response r.content],
                Except.ok
                  { metadata :=
                      { title := "Analysis: " ++ contextUnderstanding,
                        created := now,
                        objective := analysisObjective,
                        tags := metadataTags },
                    segments := segs })
        | Except.ok (some _) =>
            ([req, LogEvent.response r.content, errEv notFunctionMapMsg],
              Except.error (RejectionReason.typeError notFunctionMapMsg))

end PlannerAgent

/-- `s.rationale || 'No rationale provided'`: the field value when truthy,
else the fixed default.  An absent field (`undefined`) is falsy. -/
def jsOrStr (v : Option Json) (dflt : String) : Json :=
  match v with
  | some j => if jsTruthy j then j else Json.str dflt
  | none => Json.str dflt

/-- One suggestion assembled by `parseGapSuggestions`: the `id` is always
freshly minted from the timestamp and index, never echoed from the model
output. -/
structure ParsedGapSuggestion where
  id : String
  title : Option Json
  objective : Option Json
  guidance : Option Json
  rationale : Json

namespace GapAnalysisAgent

/-- The first match of `/```json\s*([\s\S]*?)\s*```/`: the region between
the first ` ```json ` marker and the next ` ``` ` marker, with the
whitespace runs adjoining either fence stripped by the greedy `\s*`
groups.  When no closing fence follows the first marker there is no match
at all: any later ` ```json ` occurrence itself contains ` ``` `, so no
later starting position can succeed either. -/
def fenceMatch (text : String) : Option String :=
  match dropUntilLit ("```json".toList) text.toList with
  | none => none
  | some suffix =>
    match takeUntilLit ("```".toList) (suffix.drop ("```json".toList.length)) with
    | none => none
    | some between => some (String.mk (jsTrimChars between))

/-- `suggestions.map((s: any, i: number) => ({...}))`: field-by-field
reads with fresh ids; a `null` element throws, aborting the whole map. -/
def buildGaps (now : Nat) : Nat → List Json → Except RejectionReason (List ParsedGapSuggestion)
  | _, [] => Except.ok []
  | i, s :: rest =>
    match jsField s "title" with
    | Except.error e => Except.error e
    | Except.ok t =>
      match jsField s "objective" with
      | Except.error e => Except.error e
      | Except.ok o =>
        match jsField s "guidance" with
        | Except.error e => Except.error e
        | Except.ok g =>
          match jsField s "rationale" with
          | Except.error e => Except.error e
          | Except.ok rat =>
            match buildGaps now (i + 1) rest with
            | Except.error e => Except.error e
            | Except.ok tail =>
                Except.ok
                  ({ id := "gap-" ++ toString now ++ "-" ++ toString i,
                     title := t, objective := o, guidance := g,
                     rationale := jsOrStr rat "No rationale provided" } :: tail)

/-- `GapAnalysisAgent.parseGapSuggestions`: no fenced block yields `[]`;
a fence whose body `JSON.parse` rejects yields `[]` (the `catch` branch);
a parsed non-array, or a thrown field access inside the map, is caught by
the same `catch` and yields `[]`; otherwise the assembled suggestions. -/
def parseGapSuggestions (jsonParse : String → Option Json) (now : Nat)
    (text : String) : List ParsedGapSuggestion :=
  match fenceMatch text with
  | none => []
  | some body =>
    match jsonParse body with
    | none => []
    | some (Json.arr xs) =>
      match buildGaps now 0 xs with
      | Except.ok l => l
      | Except.error _ => []
    | some _ => []

end GapAnalysisAgent

/-- The five workflow phases. -/
inductive Phase where
  | UPLOAD_ALIGN : Phase
  | PROCESSING_VALIDATION : Phase
  | INSIGHT_EXTRACTION : Phase
  | GAP_ANALYSIS : Phase
  | CONSOLIDATION : Phase
deriving DecidableEq

structure PlannerOutput where
  contextUnderstanding : String
  metadataTags : List String
  analysisObjective : String
deriving DecidableEq

/-- `FrameworkSegment` as held in the analysis state (well-typed string
fields, unlike the raw parse output). -/
structure FrameworkSegment where
  id : String
  title : String
  objective : String
  guidance : String
  order : Nat
deriving DecidableEq

structure FrameworkMeta where
  title : String
  created : Nat
  objective : String
  tags : List String
deriving DecidableEq

structure AnalysisFramework where
  metadata : FrameworkMeta
  segments : List FrameworkSegment
deriving DecidableEq

structure GapSuggestion where
  id : String
  title : String
  objective : String
  guidance : String
  rationale : String
deriving DecidableEq

/-- The `GapAnalysis` aggregate held in the analysis state; legacy
display-only fields that no claim mentions are elided. -/
structure GapAnalysis where
  suggestions : List GapSuggestion
  analyzedGaps : List (String × SegmentAnalysis)
  summary : String
deriving DecidableEq

/-- The cross-phase `AnalysisState` managed by `AnalysisProvider`. -/
structure AnalysisState where
  currentPhase : Phase
  transcript : String
  plannerOutput : Option PlannerOutput
  framework : Option AnalysisFramework
  segmentAnalyses : List (String × SegmentAnalysis)
  criticEvaluations : List (String × CriticEvaluation)
  gapAnalysis : Option GapAnalysis
deriving DecidableEq

namespace AnalysisContext

/-- The phase gate `canProceedToPhase` of `AnalysisContext`: the
`GAP_ANALYSIS` and `CONSOLIDATION` cases test `segmentAnalyses.size > 0`
— the size of the map, with no condition on the status of its entries. -/
def canProceedToPhase (state : AnalysisState) (phase : Phase) : Bool :=
  match phase with
  | Phase.UPLOAD_ALIGN => true
  | Phase.PROCESSING_VALIDATION =>
      state.plannerOutput.isSome && state.transcript != ""
  | Phase.INSIGHT_EXTRACTION => state.framework.isSome
  | Phase.GAP_ANALYSIS => decide (0 < state.segmentAnalyses.length)
  | Phase.CONSOLIDATION => decide (0 < state.segmentAnalyses.length)

/-- `suggestion || prev.gapAnalysis?.suggestions.find(s => s.id === gapId)`:
the explicit argument when present, else the first stored suggestion with
the given id. -/
def targetSuggestionOf (prev : AnalysisState) (gapId : String)
    (suggestion : Option GapSuggestion) : Option GapSuggestion :=
  match suggestion with
  | some s => some s
  | none =>
    match prev.gapAnalysis with
    | some ga => ga.suggestions.find? (fun s => s.id == gapId)
    | none => none

/-- `addGapToMainAnalysis`: stores the analysis under the gap id, appends
— when a framework exists and a suggestion is found — a new
`FrameworkSegment` carrying the suggestion fields with
`order = segments.length + 1`, and deletes the gap id from the
in-progress `analyzedGaps` map.  All other state fields ride along via
the spread of `prev`. -/
def addGapToMainAnalysis (prev : AnalysisState) (gapId : String)
    (analysis : SegmentAnalysis) (suggestion : Option GapSuggestion) : AnalysisState :=
  let newAnalyses := mapSet prev.segmentAnalyses gapId analysis
  let targetSuggestion := targetSuggestionOf prev gapId suggestion
  let newFramework :=
    match targetSuggestion, prev.framework with
    | some ts, some fw =>
        some { fw with
                 segments := fw.segments ++
                   [{ id := ts.id, title := ts.title, objective := ts.objective,
                      guidance := ts.guidance, order := fw.segments.length + 1 }] }
    | _, _ => prev.framework
  let newGapAnalyses :=
    mapDelete (match prev.gapAnalysis with
               | some ga => ga.analyzedGaps
               | none => []) gapId
  { prev with
      segmentAnalyses := newAnalyses,
      framework := newFramework,
      gapAnalysis :=
        match prev.gapAnalysis with
        | some ga => some { ga with analyzedGaps := newGapAnalyses }
        | none => none }

end AnalysisContext

/-- `AgentStatus` (`IDLE | RUNNING | COMPLETED | FAILED`). -/
inductive AgentStatus where
  | idle : AgentStatus
  | running : AgentStatus
  | completed : AgentStatus
  | failed : AgentStatus
deriving DecidableEq

/-- One tracked agent record of the orchestrator. -/
structure Agent where
  id : String
  name : String
  status : AgentStatus
  progress : Nat
  output : Option String
  error : Option String
deriving DecidableEq

/-- A `Partial<Agent>` passed to `updateAgent`; `Object.assign` copies
exactly the present fields over the stored record. -/
structure AgentUpdates where
  id : Option String := none
  name : Option String := none
  status : Option AgentStatus := none
  progress : Option Nat := none
  output : Option String := none
  error : Option String := none

def applyUpdates (a : Agent) (u : AgentUpdates) : Agent :=
  { id := u.id.getD a.id,
    name := u.name.getD a.name,
    status := u.status.getD a.status,
    progress := u.progress.getD a.progress,
    output := match u.output with | some v => some v | none => a.output,
    error := match u.error with | some v => some v | none => a.error }

/-- Orchestrator state: the agent map plus the record of snapshots
broadcast to subscribers (`notifyListeners` pushes the full current agent
list after every mutation; an unchanged `notifications` field means no
listener was invoked). -/
structure OrchState where
  agents : List (String × Agent)
  notifications : List (List Agent)
deriving DecidableEq

/-- One task handed to `runParallelAgents`.  Its work function is
embedded by its settled outcome: the resolved string or the rejection
value. -/
structure TaskSpec where
  id : String
  name : String
  task : Except RejectionReason String

namespace AgentOrchestrator

def notifyListeners (st : OrchState) : OrchState :=
  { st with notifications := st.notifications ++ [st.agents.map Prod.snd] }

/-- `registerAgent`: `this.agents.set(agent.id, agent)` then notify. -/
def registerAgent (st : OrchState) (a : Agent) : OrchState :=
  notifyListeners { st with agents := mapSet st.agents a.id a }

/-- `updateAgent`: mutate the stored record in place and notify — but
only when the id is present; an unknown id leaves the state untouched and
notifies nobody. -/
def updateAgent (st : OrchState) (id : String) (u : AgentUpdates) : OrchState :=
  match mapGet st.agents id with
  | some a => notifyListeners { st with agents := mapSet st.agents id (applyUpdates a u) }
  | none => st

/-- The record registered for a task before anything runs. -/
def initAgent (t : TaskSpec) : Agent :=
  { id := t.id, name := t.name, status := AgentStatus.idle, progress := 0,
    output := none, error := none }

/-- The body of the async closure `runParallelAgents` launches per task:
mark the task running, await its work, then mark it completed with its
output or failed with its extracted error message (`throw error` inside
the closure only feeds the rejected branch of `allSettled`; the state
mutations are these two updates). -/
def runTask (s : OrchState) (t : TaskSpec) : OrchState :=
  let s1 := updateAgent s t.id
    { status := some AgentStatus.running, progress := some 0 }
  match t.task with
  | Except.ok r =>
      updateAgent s1 t.id
        { status := some AgentStatus.completed, progress := some 100,
          output := some r }
  | Except.error e =>
      updateAgent s1 t.id
        { status := some AgentStatus.failed, error := some (errMessage e) }

/-- The `results.forEach` collection step: a fulfilled result contributes
`(id, result)` to the output map, a rejected one only logs to the
console. -/
def collectResult (m : List (String × String)) (t : TaskSpec) :
    List (String × String) :=
  match t.task with
  | Except.ok r => mapSet m t.id r
  | Except.error _ => m

/-- `runParallelAgents`: register every task as idle, run every task
(each marks itself running, then completed with its output or failed with
its extracted error message), and collect the fulfilled `{id, result}`
pairs in task order.  The JavaScript tasks run interleaved on one thread,
but every mutation touches only the id of its own task, so the final
agent map and the result map are the same for every interleaving; the
embedding runs the settled tasks in registration order. -/
def runParallelAgents (st : OrchState) (tasks : List TaskSpec) :
    OrchState × List (String × String) :=
  let st1 := tasks.foldl (fun s t => registerAgent s (initAgent t)) st
  let st2 := tasks.foldl runTask st1
  let outputMap := tasks.foldl collectResult []
  (st2, outputMap)

/-- The record a task holds after the batch settles. -/
def finalAgent (t : TaskSpec) : Agent :=
  match t.task with
  | Except.ok r =>
      { id := t.id, name := t.name, status := AgentStatus.completed,
        progress := 100, output := some r, error := none }
  | Except.error e =>
      { id := t.id, name := t.name, status := AgentStatus.failed,
        progress := 0, output := none, error := some (errMessage e) }

end AgentOrchestrator

/-! ## Claim theorems -/

/-- C1 (counterexample).  The claim fails on
`PlannerAgent.analyzeContextStream`: with the single chunk `" a "` the
concatenation of the yielded chunks is `" a "`, but the terminal response
log entry receives the trimmed text `"a"` (the source logs
`fullResponse.trim()`), so the two differ. -/
theorem c1_trim_counterexample :
    loggedResponse (PlannerAgent.analyzeContextStream [" a "]).events = some "a" ∧
    sJoin (PlannerAgent.analyzeContextStream [" a "]).yielded = " a " ∧
    (" a " : String) ≠ "a" := by
  refine ⟨rfl, rfl, ?_⟩
  decide

/-- C1 (amended).  For every streaming agent operation that completes
without error, the chunks yielded to the caller are exactly the stream
chunks, and the full text passed to the terminal response log entry is
their in-order concatenation for `generateFrameworkStream`,
`analyzeSegmentStream`, `evaluateSegmentStream` and `identifyGaps` — but
the trimmed concatenation (`fullResponse.trim()`) for
`analyzeContextStream` and `proposeObjectiveStream`. -/
theorem c1_stream_concat_amended (chunks : List String) :
    PlannerAgent.generateFrameworkStream chunks =
      { yielded := chunks,
        events := [LogEvent.request "Planner Agent" "planner",
                   LogEvent.response (sJoin chunks)] } ∧
    WriterAgent.analyzeSegmentStream chunks =
      { yielded := chunks,
        events := [LogEvent.request "Writer Agent" "writer",
                   LogEvent.response (sJoin chunks)] } ∧
    CriticAgent.evaluateSegmentStream chunks =
      { yielded := chunks,
        events := [LogEvent.request "Critic Agent" "critic",
                   LogEvent.response (sJoin chunks)] } ∧
    GapAnalysisAgent.identifyGaps chunks =
      { yielded := chunks,
        events := [LogEvent.request "Gap Analysis Agent" "identify-gaps",
                   LogEvent.response (sJoin chunks)] } ∧
    PlannerAgent.analyzeContextStream chunks =
      { yielded := chunks,
        events := [LogEvent.request "Planner Agent" "planner",
                   LogEvent.response (jsTrim (sJoin chunks))] } ∧
    PlannerAgent.proposeObjectiveStream chunks =
      { yielded := chunks,
        events := [LogEvent.request "Planner Agent" "planner",
                   LogEvent.response (jsTrim (sJoin chunks))] } := by
  refine ⟨?_, ?_, ?_, ?_, ?_, ?_⟩ <;>
    simp [PlannerAgent.generateFrameworkStream, WriterAgent.analyzeSegmentStream,
      CriticAgent.evaluateSegmentStream, GapAnalysisAgent.identifyGaps,
      PlannerAgent.analyzeContextStream, PlannerAgent.proposeObjectiveStream,
      consumeStream_spec]

/-- C2 (counterexample).  The claim fails on `WriterAgent.analyzeSegment`:
when the completion rejects, the method logs the error but does not
re-throw — its promise resolves (`isOk`) with the fallback
`SegmentAnalysis` of status `error` and empty content. -/
theorem c2_analyzeSegment_counterexample :
    WriterAgent.analyzeSegment "s" 0 (Except.error (RejectionReason.jsError "boom")) =
      ([LogEvent.request "Writer Agent" "writer",
        LogEvent.error "Writer Agent" "writer" "boom"],
       Except.ok { segmentId := "s", content := "",
                   status := SegmentStatus.error, generatedAt := none }) ∧
    (WriterAgent.analyzeSegment "s" 0
        (Except.error (RejectionReason.jsError "boom"))).2.isOk = true := by
  exact ⟨rfl, rfl⟩

/-- C2 (amended).  When the underlying completion call fails,
`rewriteSegment`, `evaluateSegment` and `generateFramework` each record an
error log entry and re-throw the original rejection; `analyzeSegment`
records the error log entry but swallows the failure, resolving with the
fallback `SegmentAnalysis` of status `error` and empty content instead of
propagating. -/
theorem c2_error_propagation_amended (e : RejectionReason) (segmentId : String)
    (now : Nat) (jsonParse : String → Option Json) (ctx obj : String)
    (tags : List String) :
    WriterAgent.rewriteSegment (Except.error e) =
      ([LogEvent.request "Writer Agent" "writer",
        LogEvent.error "Writer Agent" "writer" (errMessage e)],
       Except.error e) ∧
    CriticAgent.evaluateSegment segmentId now (Except.error e) =
      ([LogEvent.request "Critic Agent" "critic",
        LogEvent.error "Critic Agent" "critic" (errMessage e)],
       Except.error e) ∧
    PlannerAgent.generateFramework jsonParse now ctx obj tags (Except.error e) =
      ([LogEvent.request "Planner Agent" "planner",
        LogEvent.error "Planner Agent" "planner" (errMessage e)],
       Except.error e) ∧
    WriterAgent.analyzeSegment segmentId now (Except.error e) =
      ([LogEvent.request "Writer Agent" "writer",
        LogEvent.error "Writer Agent" "writer" (errMessage e)],
       Except.ok { segmentId := segmentId, content := "",
                   status := SegmentStatus.error, generatedAt := none }) := by
  exact ⟨rfl, rfl, rfl, rfl⟩

/-- C8.  On the fixed well-formed critic response, parsing yields
alignment `false`, the single issue `unsupported claim A`, score `62`,
and the guidance `Add citations.`. -/
theorem c8_critic_parse_fixed :
    (CriticAgent.evaluateSegment "seg-1" 0
        (Except.ok
          { content := "## Source Alignment\nFAIL\n- unsupported claim A\n## Objective Fulfillment\nScore: 62%\n## Improvement Guidance\nAdd citations.",
            usage := none })).2
      = Except.ok
          { segmentId := "seg-1",
            evaluation := "## Source Alignment\nFAIL\n- unsupported claim A\n## Objective Fulfillment\nScore: 62%\n## Improvement Guidance\nAdd citations.",
            sourceAlignment := false,
            sourceAlignmentIssues := some ["unsupported claim A"],
            objectiveFulfillmentScore := 62,
            improvementGuidance := "Add citations.",
            suggestions := [],
            generatedAt := 0 } := by
  rfl

/-- C10.  `updateAgent` with an id that was never registered is a silent
no-op: the agent map is unchanged and no snapshot is broadcast (the whole
orchestrator state, notifications included, is returned untouched). -/
theorem c10_updateAgent_unknown (st : OrchState) (id : String) (u : AgentUpdates)
    (h : mapGet st.agents id = none) :
    AgentOrchestrator.updateAgent st id u = st := by
  unfold AgentOrchestrator.updateAgent
  rw [h]

theorem c10_updateAgent_unknown_witness :
    AgentOrchestrator.updateAgent { agents := [], notifications := [] } "x"
        { status := some AgentStatus.failed } =
      { agents := [], notifications := [] } :=
  c10_updateAgent_unknown { agents := [], notifications := [] } "x"
    { status := some AgentStatus.failed } rfl

/-- C5 (counterexample).  The gate does not inspect the status of the
stored analyses: a state whose segment-analysis map holds exactly one
entry of status `error` (no completed analysis at all) still passes the
`GAP_ANALYSIS` and `CONSOLIDATION` gates. -/
theorem c5_gate_status_counterexample :
    AnalysisContext.canProceedToPhase
        { currentPhase := Phase.UPLOAD_ALIGN, transcript := "", plannerOutput := none,
          framework := none,
          segmentAnalyses :=
            [("s1", { segmentId := "s1", content := "",
                      status := SegmentStatus.error, generatedAt := none })],
          criticEvaluations := [], gapAnalysis := none }
        Phase.GAP_ANALYSIS = true ∧
    AnalysisContext.canProceedToPhase
        { currentPhase := Phase.UPLOAD_ALIGN, transcript := "", plannerOutput := none,
          framework := none,
          segmentAnalyses :=
            [("s1", { segmentId := "s1", content := "",
                      status := SegmentStatus.error, generatedAt := none })],
          criticEvaluations := [], gapAnalysis := none }
        Phase.CONSOLIDATION = true ∧
    ([("s1", ({ segmentId := "s1", content := "", status := SegmentStatus.error,
                generatedAt := none } : SegmentAnalysis))].all
        (fun p => p.2.status != SegmentStatus.complete)) = true := by
  exact ⟨rfl, rfl, rfl⟩

/-- C5 (amended).  `canProceedToPhase` returns: `true` for `UPLOAD_ALIGN`
unconditionally; for `PROCESSING_VALIDATION` true iff the transcript is
non-empty and a planner output exists; for `INSIGHT_EXTRACTION` true iff
a framework exists; and for `GAP_ANALYSIS` and `CONSOLIDATION` true iff
the segment-analysis map is non-empty — regardless of the status of its
entries. -/
theorem c5_gate_amended (st : AnalysisState) :
    AnalysisContext.canProceedToPhase st Phase.UPLOAD_ALIGN = true ∧
    (AnalysisContext.canProceedToPhase st Phase.PROCESSING_VALIDATION = true ↔
      st.plannerOutput.isSome = true ∧ st.transcript ≠ "") ∧
    (AnalysisContext.canProceedToPhase st Phase.INSIGHT_EXTRACTION = true ↔
      st.framework.isSome = true) ∧
    (AnalysisContext.canProceedToPhase st Phase.GAP_ANALYSIS = true ↔
      st.segmentAnalyses ≠ []) ∧
    (AnalysisContext.canProceedToPhase st Phase.CONSOLIDATION = true ↔
      st.segmentAnalyses ≠ []) := by
  refine ⟨rfl, ?_, Iff.rfl, ?_, ?_⟩ <;>
    simp [AnalysisContext.canProceedToPhase, List.length_pos, bne_iff_ne]

/-- C6.  Promoting a stored gap suggestion: the framework gains exactly
one appended segment whose `title`/`objective`/`guidance` equal the
suggestion fields, the analysis is stored under the gap id (all other
keys of the segment-analysis map untouched), and the gap id is no longer
present in the in-progress `analyzedGaps` map. -/
theorem c6_addGap_roundtrip (prev : AnalysisState) (gapId : String)
    (analysis : SegmentAnalysis) (fw : AnalysisFramework) (ga : GapAnalysis)
    (sugg : GapSuggestion)
    (hfw : prev.framework = some fw)
    (hga : prev.gapAnalysis = some ga)
    (hfind : ga.suggestions.find? (fun s => s.id == gapId) = some sugg) :
    (AnalysisContext.addGapToMainAnalysis prev gapId analysis none).framework
        = some { fw with
                   segments := fw.segments ++
                     [{ id := sugg.id, title := sugg.title, objective := sugg.objective,
                        guidance := sugg.guidance, order := fw.segments.length + 1 }] } ∧
    mapGet (AnalysisContext.addGapToMainAnalysis prev gapId analysis none).segmentAnalyses
        gapId = some analysis ∧
    (∀ k, k ≠ gapId →
      mapGet (AnalysisContext.addGapToMainAnalysis prev gapId analysis none).segmentAnalyses k
        = mapGet prev.segmentAnalyses k) ∧
    ((AnalysisContext.addGapToMainAnalysis prev gapId analysis none).gapAnalysis).map
        (fun g => mapGet g.analyzedGaps gapId) = some none := by
  refine ⟨?_, ?_, ?_, ?_⟩
  · simp [AnalysisContext.addGapToMainAnalysis, AnalysisContext.targetSuggestionOf,
      hga, hfind, hfw]
  · simp [AnalysisContext.addGapToMainAnalysis, mapGet_set_self]
  · intro k hk
    simp [AnalysisContext.addGapToMainAnalysis, mapGet_set_other _ _ _ _ hk]
  · simp [AnalysisContext.addGapToMainAnalysis, hga, mapGet_delete_self]

theorem c6_addGap_roundtrip_witness :
    (AnalysisContext.addGapToMainAnalysis
        { currentPhase := Phase.GAP_ANALYSIS, transcript := "t", plannerOutput := none,
          framework := some { metadata := { title := "F", created := 0, objective := "O",
                                            tags := [] },
                              segments := [] },
          segmentAnalyses := [],
          criticEvaluations := [],
          gapAnalysis := some
            { suggestions := [{ id := "g1", title := "GT", objective := "GO",
                                guidance := "GG", rationale := "GR" }],
              analyzedGaps := [("g1", { segmentId := "g1", content := "c",
                                        status := SegmentStatus.complete,
                                        generatedAt := some 1 })],
              summary := "" } }
        "g1"
        { segmentId := "g1", content := "c", status := SegmentStatus.complete,
          generatedAt := some 1 }
        none).framework
      = some { metadata := { title := "F", created := 0, objective := "O", tags := [] },
               segments := [{ id := "g1", title := "GT", objective := "GO",
                              guidance := "GG", order := 1 }] } :=
  (c6_addGap_roundtrip _ "g1" _
      { metadata := { title := "F", created := 0, objective := "O", tags := [] },
        segments := [] }
      { suggestions := [{ id := "g1", title := "GT", objective := "GO",
                          guidance := "GG", rationale := "GR" }],
        analyzedGaps := [("g1", { segmentId := "g1", content := "c",
                                  status := SegmentStatus.complete,
                                  generatedAt := some 1 })],
        summary := "" }
      { id := "g1", title := "GT", objective := "GO", guidance := "GG", rationale := "GR" }
      rfl rfl rfl).1

/-- C7.  `addGapToMainAnalysis` leaves `criticEvaluations`, `transcript`,
`plannerOutput` and `currentPhase` unchanged on every call, and whenever a
framework exists and a target suggestion is found, the appended segment
carries `order = prior segment count + 1`. -/
theorem c7_addGap_frame (prev : AnalysisState) (gapId : String)
    (analysis : SegmentAnalysis) (suggestion : Option GapSuggestion) :
    (AnalysisContext.addGapToMainAnalysis prev gapId analysis suggestion).criticEvaluations
        = prev.criticEvaluations ∧
    (AnalysisContext.addGapToMainAnalysis prev gapId analysis suggestion).transcript
        = prev.transcript ∧
    (AnalysisContext.addGapToMainAnalysis prev gapId analysis suggestion).plannerOutput
        = prev.plannerOutput ∧
    (AnalysisContext.addGapToMainAnalysis prev gapId analysis suggestion).currentPhase
        = prev.currentPhase ∧
    (∀ fw ts, prev.framework = some fw →
      AnalysisContext.targetSuggestionOf prev gapId suggestion = some ts →
      (AnalysisContext.addGapToMainAnalysis prev gapId analysis suggestion).framework
        = some { fw with
                   segments := fw.segments ++
                     [{ id := ts.id, title := ts.title, objective := ts.objective,
                        guidance := ts.guidance, order := fw.segments.length + 1 }] }) := by
  refine ⟨rfl, rfl, rfl, rfl, ?_⟩
  intro fw ts h1 h2
  simp [AnalysisContext.addGapToMainAnalysis, h1, h2]

theorem c7_addGap_frame_witness :
    (AnalysisContext.addGapToMainAnalysis
        { currentPhase := Phase.GAP_ANALYSIS, transcript := "t", plannerOutput := none,
          framework := some { metadata := { title := "F", created := 0, objective := "O",
                                            tags := [] },
                              segments := [{ id := "s0", title := "T0", objective := "O0",
                                             guidance := "G0", order := 0 }] },
          segmentAnalyses := [], criticEvaluations := [], gapAnalysis := none }
        "g2"
        { segmentId := "g2", content := "c", status := SegmentStatus.complete,
          generatedAt := some 2 }
        (some { id := "g2", title := "GT", objective := "GO", guidance := "GG",
                rationale := "GR" })).framework
      = some { metadata := { title := "F", created := 0, objective := "O", tags := [] },
               segments := [{ id := "s0", title := "T0", objective := "O0",
                              guidance := "G0", order := 0 },
                            { id := "g2", title := "GT", objective := "GO",
                              guidance := "GG", order := 2 }] } :=
  (c7_addGap_frame _ "g2" _
      (some { id := "g2", title := "GT", objective := "GO", guidance := "GG",
              rationale := "GR" })).2.2.2.2
    { metadata := { title := "F", created := 0, objective := "O", tags := [] },
      segments := [{ id := "s0", title := "T0", objective := "O0", guidance := "G0",
                     order := 0 }] }
    { id := "g2", title := "GT", objective := "GO", guidance := "GG", rationale := "GR" }
    rfl rfl

/-- Every suggestion assembled by `buildGaps` carries the freshly minted
id `gap-<now>-<index>`, independent of the element contents. -/
theorem buildGaps_ids (now : Nat) :
    ∀ (xs : List Json) (k : Nat) (l : List ParsedGapSuggestion),
      GapAnalysisAgent.buildGaps now k xs = Except.ok l →
      ∀ (i : Nat) (h : i < l.length),
        (l.get ⟨i, h⟩).id = "gap-" ++ toString now ++ "-" ++ toString (k + i) := by
  intro xs
  induction xs with
  | nil =>
      intro k l hl i h
      simp only [GapAnalysisAgent.buildGaps] at hl
      cases hl
      exact absurd h (by simp)
  | cons s rest ih =>
      intro k l hl i h
      simp only [GapAnalysisAgent.buildGaps] at hl
      split at hl
      · exact absurd hl (by simp)
      · split at hl
        · exact absurd hl (by simp)
        · split at hl
          · exact absurd hl (by simp)
          · split at hl
            · exact absurd hl (by simp)
            · split at hl
              · exact absurd hl (by simp)
              · rename_i tail htail
                cases hl
                cases i with
                | zero => simp
                | succ i' =>
                    have h' : i' < tail.length := by
                      simpa [Nat.succ_lt_succ_iff] using h
                    have := ih (k + 1) tail htail i' h'
                    simpa [Nat.add_assoc, Nat.add_comm 1 i', this]
                      using this

/-- C9.  `parseGapSuggestions`: no fenced `json` block yields the empty
list without throwing; a fence whose body fails to parse also yields the
empty list; and every successfully parsed suggestion carries a freshly
generated `gap-<timestamp>-<index>` id, never one echoed from the model
output. -/
theorem c9_parseGapSuggestions_spec (jsonParse : String → Option Json) (now : Nat)
    (text : String) :
    (GapAnalysisAgent.fenceMatch text = none →
      GapAnalysisAgent.parseGapSuggestions jsonParse now text = []) ∧
    (∀ body, GapAnalysisAgent.fenceMatch text = some body → jsonParse body = none →
      GapAnalysisAgent.parseGapSuggestions jsonParse now text = []) ∧
    (∀ (i : Nat) (h : i < (GapAnalysisAgent.parseGapSuggestions jsonParse now text).length),
      ((GapAnalysisAgent.parseGapSuggestions jsonParse now text).get ⟨i, h⟩).id
        = "gap-" ++ toString now ++ "-" ++ toString i) := by
  refine ⟨?_, ?_, ?_⟩
  · intro hf
    simp [GapAnalysisAgent.parseGapSuggestions, hf]
  · intro body hf hj
    simp [GapAnalysisAgent.parseGapSuggestions, hf, hj]
  · intro i h
    cases hf : GapAnalysisAgent.fenceMatch text with
    | none =>
        exfalso
        rw [GapAnalysisAgent.parseGapSuggestions, hf] at h
        exact absurd h (by simp)
    | some body =>
        cases hj : jsonParse body with
        | none =>
            exfalso
            rw [GapAnalysisAgent.parseGapSuggestions, hf] at h
            simp only [hj] at h
            exact absurd h (by simp)
        | some v =>
            cases v with
            | arr xs =>
                cases hbg : GapAnalysisAgent.buildGaps now 0 xs with
                | ok l =>
                    have hp : GapAnalysisAgent.parseGapSuggestions jsonParse now text = l := by
                      rw [GapAnalysisAgent.parseGapSuggestions, hf]
                      simp only [hj, hbg]
                    revert h
                    rw [hp]
                    intro h
                    have := buildGaps_ids now xs 0 l hbg i h
                    simpa using this
                | error e =>
                    exfalso
                    rw [GapAnalysisAgent.parseGapSuggestions, hf] at h
                    simp only [hj, hbg] at h
                    exact absurd h (by simp)
            | null =>
                exfalso
                rw [GapAnalysisAgent.parseGapSuggestions, hf] at h
                simp only [hj] at h
                exact absurd h (by simp)
            | bool b =>
                exfalso
                rw [GapAnalysisAgent.parseGapSuggestions, hf] at h
                simp only [hj] at h
                exact absurd h (by simp)
            | num n =>
                exfalso
                rw [GapAnalysisAgent.parseGapSuggestions, hf] at h
                simp only [hj] at h
                exact absurd h (by simp)
            | str s =>
                exfalso
                rw [GapAnalysisAgent.parseGapSuggestions, hf] at h
                simp only [hj] at h
                exact absurd h (by simp)
            | obj fields =>
                exfalso
                rw [GapAnalysisAgent.parseGapSuggestions, hf] at h
                simp only [hj] at h
                exact absurd h (by simp)

theorem c9_parseGapSuggestions_witness :
    GapAnalysisAgent.parseGapSuggestions (fun _ => none) 0 "no fence here" = [] :=
  (c9_parseGapSuggestions_spec (fun _ => none) 0 "no fence here").1 rfl

/-- C3 (counterexample).  A framework response whose JSON object carries
the capitalized key `Segments` makes `generateFramework` fail: the code
reads only the lowercase `parsed.segments`, which is `undefined`, and the
subsequent `.map` throws; the error is logged and re-thrown instead of
any placeholder-based assembly. -/
theorem c3_capitalized_counterexample :
    (PlannerAgent.generateFramework
        (fun s =>
          if s = "\x7b\"Segments\":[\x7b\"Title\":\"A\",\"Objective\":\"B\",\"Guidance\":\"C\"\x7d]\x7d"
          then some (Json.obj [("Segments",
                 Json.arr [Json.obj [("Title", Json.str "A"), ("Objective", Json.str "B"),
                                     ("Guidance", Json.str "C")]])])
          else none)
        0 "ctx" "obj" []
        (Except.ok
          { content := "\x7b\"Segments\":[\x7b\"Title\":\"A\",\"Objective\":\"B\",\"Guidance\":\"C\"\x7d]\x7d",
            usage := none })).2
      = Except.error (RejectionReason.typeError undefinedMapMsg) := by
  rfl

/-- C3 (amended).  `generateFramework` reads only the lowercase
`segments` key of the parsed object: when that key is absent (in
particular when the response uses `Segments`), the operation fails with
the logged and re-thrown `.map` error rather than assembling anything;
when `segments` holds an array, each element is assembled with a freshly
minted id and with `title`/`objective`/`guidance` copied verbatim —
`none` when absent, with no placeholder substitution.  (The
case-insensitive key fallback and placeholder defaults described by the
spec live in the Phase-2 page parsing of the streamed response, not in
`PlannerAgent.generateFramework`.) -/
theorem c3_generateFramework_keys_amended (jsonParse : String → Option Json)
    (now : Nat) (ctx obj : String) (tags : List String) (content : String)
    (usage : Option TokenUsage) (js : String) (parsed : Json)
    (hb : braceMatch content = some js) (hp : jsonParse js = some parsed) :
    (jsField parsed "segments" = Except.ok none →
      (PlannerAgent.generateFramework jsonParse now ctx obj tags
          (Except.ok { content := content, usage := usage })).2
        = Except.error (RejectionReason.typeError undefinedMapMsg)) ∧
    (∀ xs : List Json, jsField parsed "segments" = Except.ok (some (Json.arr xs)) →
      (∀ s ∈ xs, s ≠ Json.null) →
      (PlannerAgent.generateFramework jsonParse now ctx obj tags
          (Except.ok { content := content, usage := usage })).2
        = Except.ok
            { metadata := { title := "Analysis: " ++ ctx, created := now,
                            objective := obj, tags := tags },
              segments := verbatimSegments now 0 xs }) := by
  constructor
  · intro hseg
    simp [PlannerAgent.generateFramework, hb, hp, hseg]
  · intro xs hseg hnn
    simp [PlannerAgent.generateFramework, hb, hp, hseg, buildSegments_ok now xs 0 hnn]

theorem c3_generateFramework_keys_witness :
    (PlannerAgent.generateFramework
        (fun s =>
          if s = "\x7b\"segments\":[\x7b\"title\":\"T\"\x7d]\x7d"
          then some (Json.obj [("segments", Json.arr [Json.obj [("title", Json.str "T")]])])
          else none)
        7 "c" "o" []
        (Except.ok { content := "\x7b\"segments\":[\x7b\"title\":\"T\"\x7d]\x7d",
                     usage := none })).2
      = Except.ok
          { metadata := { title := "Analysis: c", created := 7, objective := "o",
                          tags := [] },
            segments := verbatimSegments 7 0 [Json.obj [("title", Json.str "T")]] } :=
  (c3_generateFramework_keys_amended
      (fun s =>
        if s = "\x7b\"segments\":[\x7b\"title\":\"T\"\x7d]\x7d"
        then some (Json.obj [("segments", Json.arr [Json.obj [("title", Json.str "T")]])])
        else none)
      7 "c" "o" [] "\x7b\"segments\":[\x7b\"title\":\"T\"\x7d]\x7d" none
      "\x7b\"segments\":[\x7b\"title\":\"T\"\x7d]\x7d"
      (Json.obj [("segments", Json.arr [Json.obj [("title", Json.str "T")]])])
      rfl rfl).2
    [Json.obj [("title", Json.str "T")]] rfl
    (by
      intro s hs
      rw [List.mem_singleton] at hs
      subst hs
      exact fun hnull => Json.noConfusion hnull)

theorem updateAgent_agents_hit (st : OrchState) (id : String) (u : AgentUpdates)
    (a : Agent) (h : mapGet st.agents id = some a) :
    (AgentOrchestrator.updateAgent st id u).agents
      = mapSet st.agents id (applyUpdates a u) := by
  unfold AgentOrchestrator.updateAgent
  rw [h]
  rfl

/-- Running one task rewrites exactly its own entry of the agent map,
from the registered record to the settled one. -/
theorem runTask_agents (s : OrchState) (t : TaskSpec)
    (pre post : List (String × Agent))
    (hpre : mapGet pre t.id = none)
    (hs : s.agents = pre ++ (t.id, AgentOrchestrator.initAgent t) :: post) :
    (AgentOrchestrator.runTask s t).agents
      = pre ++ (t.id, AgentOrchestrator.finalAgent t) :: post := by
  have hget1 : mapGet s.agents t.id = some (AgentOrchestrator.initAgent t) := by
    rw [hs]; exact mapGet_append_mid pre post t.id _ hpre
  have h1 : (AgentOrchestrator.updateAgent s t.id
      { status := some AgentStatus.running, progress := some 0 }).agents
      = pre ++ (t.id, applyUpdates (AgentOrchestrator.initAgent t)
          { status := some AgentStatus.running, progress := some 0 }) :: post := by
    rw [updateAgent_agents_hit s t.id _ _ hget1, hs]
    exact mapSet_append_mid pre post t.id _ _ hpre
  have hget2 : mapGet (AgentOrchestrator.updateAgent s t.id
      { status := some AgentStatus.running, progress := some 0 }).agents t.id
      = some (applyUpdates (AgentOrchestrator.initAgent t)
          { status := some AgentStatus.running, progress := some 0 }) := by
    rw [h1]; exact mapGet_append_mid pre post t.id _ hpre
  cases ht : t.task with
  | ok r =>
      simp only [AgentOrchestrator.runTask, ht]
      rw [updateAgent_agents_hit _ t.id _ _ hget2, h1,
        mapSet_append_mid pre post t.id _ _ hpre]
      simp [applyUpdates, AgentOrchestrator.initAgent, AgentOrchestrator.finalAgent, ht]
  | error e =>
      simp only [AgentOrchestrator.runTask, ht]
      rw [updateAgent_agents_hit _ t.id _ _ hget2, h1,
        mapSet_append_mid pre post t.id _ _ hpre]
      simp [applyUpdates, AgentOrchestrator.initAgent, AgentOrchestrator.finalAgent, ht]

/-- The registration pass only composes `mapSet` on the agent map. -/
theorem register_fold_agents (tasks : List TaskSpec) :
    ∀ st : OrchState,
      ((tasks.foldl (fun s t => AgentOrchestrator.registerAgent s
          (AgentOrchestrator.initAgent t)) st).agents)
        = tasks.foldl (fun m t => mapSet m t.id (AgentOrchestrator.initAgent t))
            st.agents := by
  induction tasks with
  | nil => intro st; rfl
  | cons t rest ih =>
      intro st
      simp only [List.foldl_cons]
      rw [ih]
      rfl

/-- Folding fresh-key insertions over a map appends the new entries in
order. -/
theorem mapSet_fold_fresh (tasks : List TaskSpec) :
    ∀ m : List (String × Agent),
      (∀ t ∈ tasks, mapGet m t.id = none) →
      (tasks.map (fun t => t.id)).Nodup →
      tasks.foldl (fun m t => mapSet m t.id (AgentOrchestrator.initAgent t)) m
        = m ++ tasks.map (fun t => (t.id, AgentOrchestrator.initAgent t)) := by
  induction tasks with
  | nil => intro m _ _; simp
  | cons t rest ih =>
      intro m hfresh hnd
      simp only [List.foldl_cons, List.map_cons]
      have h1 : mapGet m t.id = none := hfresh t (List.mem_cons_self t rest)
      rw [mapSet_fresh m t.id _ h1]
      have hnd2 : (∀ x ∈ rest, ¬ x.id = t.id) ∧ (rest.map (fun t => t.id)).Nodup := by
        simpa using hnd
      have hfresh' : ∀ x ∈ rest, mapGet (m ++ [(t.id, AgentOrchestrator.initAgent t)]) x.id
          = none := by
        intro x hx
        rw [mapGet_append]
        have hmx : mapGet m x.id = none := hfresh x (List.mem_cons_of_mem t hx)
        have hne : ¬ t.id = x.id := fun hid => hnd2.1 x hx hid.symm
        simp [hmx, mapGet, hne]
      rw [ih _ hfresh' hnd2.2]
      simp

/-- The execution pass settles each pending task in place. -/
theorem runTask_fold :
    ∀ (pending : List TaskSpec) (done : List (String × Agent)) (s : OrchState),
      s.agents = done ++ pending.map (fun t => (t.id, AgentOrchestrator.initAgent t)) →
      (∀ t ∈ pending, mapGet done t.id = none) →
      (pending.map (fun t => t.id)).Nodup →
      (pending.foldl AgentOrchestrator.runTask s).agents
        = done ++ pending.map (fun t => (t.id, AgentOrchestrator.finalAgent t)) := by
  intro pending
  induction pending with
  | nil => intro done s hs _ _; simpa using hs
  | cons t rest ih =>
      intro done s hs hfresh hnd
      simp only [List.foldl_cons, List.map_cons]
      have hdone : mapGet done t.id = none := hfresh t (List.mem_cons_self t rest)
      have hs' : s.agents = done ++ (t.id, AgentOrchestrator.initAgent t) ::
          rest.map (fun t => (t.id, AgentOrchestrator.initAgent t)) := by
        simpa using hs
      have hrt := runTask_agents s t done
        (rest.map (fun t => (t.id, AgentOrchestrator.initAgent t))) hdone hs'
      have hnd2 : (∀ x ∈ rest, ¬ x.id = t.id) ∧ (rest.map (fun t => t.id)).Nodup := by
        simpa using hnd
      have hfresh' : ∀ x ∈ rest,
          mapGet (done ++ [(t.id, AgentOrchestrator.finalAgent t)]) x.id = none := by
        intro x hx
        rw [mapGet_append]
        have hmx : mapGet done x.id = none := hfresh x (List.mem_cons_of_mem t hx)
        have hne : ¬ t.id = x.id := fun hid => hnd2.1 x hx hid.symm
        simp [hmx, mapGet, hne]
      have hs2 : (AgentOrchestrator.runTask s t).agents
          = (done ++ [(t.id, AgentOrchestrator.finalAgent t)]) ++
              rest.map (fun t => (t.id, AgentOrchestrator.initAgent t)) := by
        rw [hrt]; simp
      rw [ih (done ++ [(t.id, AgentOrchestrator.finalAgent t)])
        (AgentOrchestrator.runTask s t) hs2 hfresh' hnd2.2]
      simp

/-- The collection pass appends the fulfilled `(id, result)` pairs in
task order. -/
theorem collect_fold (tasks : List TaskSpec) :
    ∀ m : List (String × String),
      (∀ t ∈ tasks, mapGet m t.id = none) →
      (tasks.map (fun t => t.id)).Nodup →
      tasks.foldl AgentOrchestrator.collectResult m
        = m ++ tasks.filterMap (fun t =>
            match t.task with
            | Except.ok r => some (t.id, r)
            | Except.error _ => none) := by
  induction tasks with
  | nil => intro m _ _; simp
  | cons t rest ih =>
      intro m hfresh hnd
      simp only [List.foldl_cons, List.filterMap_cons]
      have hnd2 : (∀ x ∈ rest, ¬ x.id = t.id) ∧ (rest.map (fun t => t.id)).Nodup := by
        simpa using hnd
      cases ht : t.task with
      | ok r =>
          have h1 : mapGet m t.id = none := hfresh t (List.mem_cons_self t rest)
          have hstep : AgentOrchestrator.collectResult m t = m ++ [(t.id, r)] := by
            simp only [AgentOrchestrator.collectResult, ht]
            exact mapSet_fresh m t.id r h1
          have hfresh' : ∀ x ∈ rest, mapGet (m ++ [(t.id, r)]) x.id = none := by
            intro x hx
            rw [mapGet_append]
            have hmx : mapGet m x.id = none := hfresh x (List.mem_cons_of_mem t hx)
            have hne : ¬ t.id = x.id := fun hid => hnd2.1 x hx hid.symm
            simp [hmx, mapGet, hne]
          rw [hstep, ih _ hfresh' hnd2.2]
          try simp [ht]
      | error e =>
          have hstep : AgentOrchestrator.collectResult m t = m := by
            simp only [AgentOrchestrator.collectResult, ht]
          have hfresh' : ∀ x ∈ rest, mapGet m x.id = none := fun x hx =>
            hfresh x (List.mem_cons_of_mem t hx)
          rw [hstep, ih _ hfresh' hnd2.2]
          try simp [ht]

/-- Of `N` tasks, the fulfilled pairs and the failed tasks partition the
batch: `(N - K)` results plus `K` failures. -/
theorem settled_partition_length (tasks : List TaskSpec) :
    (tasks.filterMap (fun t =>
        match t.task with
        | Except.ok r => some (t.id, r)
        | Except.error _ => none)).length
      + (tasks.filter (fun t =>
          match t.task with
          | Except.ok _ => false
          | Except.error _ => true)).length
      = tasks.length := by
  induction tasks with
  | nil => rfl
  | cons t rest ih =>
      cases ht : t.task with
      | ok r =>
          simp [List.filterMap_cons, List.filter_cons, ht]
          omega
      | error e =>
          simp [List.filterMap_cons, List.filter_cons, ht]
          omega

/-- C4 (counterexample).  The claim requires every failing task to end
with a non-empty error message, but the stored message is exactly
`error.message`: a task rejecting with `new Error("")` ends `failed` with
the empty string as its error message. -/
theorem c4_empty_message_counterexample :
    mapGet (AgentOrchestrator.runParallelAgents { agents := [], notifications := [] }
        [{ id := "t1", name := "n1",
           task := Except.error (RejectionReason.jsError "") }]).1.agents "t1"
      = some { id := "t1", name := "n1", status := AgentStatus.failed, progress := 0,
               output := none, error := some "" } := by
  rfl

/-- C4 (amended).  For a batch of tasks with distinct ids: the returned
map holds exactly the `(id, result)` pairs of the tasks whose work
resolved, in task order; the final agent map holds every task settled —
completed tasks with their output, failing tasks in state `failed` with
error message `error.message` for an `Error` rejection (possibly empty)
and `Unknown error` otherwise; and each entry of both maps is determined
by its own task alone, so a failing task never cancels or alters the
outcome of a sibling.  The result map holds `N − K` entries when `K` of
the `N` tasks fail. -/
theorem c4_runParallelAgents_amended (tasks : List TaskSpec)
    (hnd : (tasks.map (fun t => t.id)).Nodup) :
    (AgentOrchestrator.runParallelAgents { agents := [], notifications := [] } tasks).2
        = tasks.filterMap (fun t =>
            match t.task with
            | Except.ok r => some (t.id, r)
            | Except.error _ => none) ∧
    (AgentOrchestrator.runParallelAgents { agents := [], notifications := [] }
        tasks).1.agents
        = tasks.map (fun t => (t.id, AgentOrchestrator.finalAgent t)) ∧
    (AgentOrchestrator.runParallelAgents { agents := [], notifications := [] }
        tasks).2.length
      + (tasks.filter (fun t =>
          match t.task with
          | Except.ok _ => false
          | Except.error _ => true)).length
      = tasks.length := by
  have hfresh0 : ∀ t ∈ tasks, mapGet ([] : List (String × Agent)) t.id = none := by
    intro t _; rfl
  have hfresh0' : ∀ t ∈ tasks, mapGet ([] : List (String × String)) t.id = none := by
    intro t _; rfl
  have hcollect : (AgentOrchestrator.runParallelAgents
      { agents := [], notifications := [] } tasks).2
      = tasks.filterMap (fun t =>
          match t.task with
          | Except.ok r => some (t.id, r)
          | Except.error _ => none) := by
    show tasks.foldl AgentOrchestrator.collectResult [] = _
    rw [collect_fold tasks [] hfresh0' hnd]
    simp
  refine ⟨hcollect, ?_, ?_⟩
  · show (tasks.foldl AgentOrchestrator.runTask
        (tasks.foldl (fun s t => AgentOrchestrator.registerAgent s
          (AgentOrchestrator.initAgent t))
          { agents := [], notifications := [] })).agents = _
    have hreg : (tasks.foldl (fun s t => AgentOrchestrator.registerAgent s
        (AgentOrchestrator.initAgent t)) { agents := [], notifications := [] }).agents
        = tasks.map (fun t => (t.id, AgentOrchestrator.initAgent t)) := by
      rw [register_fold_agents tasks { agents := [], notifications := [] }]
      have := mapSet_fold_fresh tasks [] hfresh0 hnd
      simpa using this
    have := runTask_fold tasks [] (tasks.foldl (fun s t =>
        AgentOrchestrator.registerAgent s (AgentOrchestrator.initAgent t))
        { agents := [], notifications := [] }) (by simpa using hreg) hfresh0 hnd
    simpa using this
  · rw [hcollect]
    exact settled_partition_length tasks

theorem c4_runParallelAgents_witness :
    (AgentOrchestrator.runParallelAgents { agents := [], notifications := [] }
        [{ id := "a", name := "A", task := Except.ok "ra" },
         { id := "b", name := "B", task := Except.error (RejectionReason.jsError "boom") },
         { id := "c", name := "C", task := Except.ok "rc" }]).2
        = [("a", "ra"), ("c", "rc")] ∧
    (AgentOrchestrator.runParallelAgents { agents := [], notifications := [] }
        [{ id := "a", name := "A", task := Except.ok "ra" },
         { id := "b", name := "B", task := Except.error (RejectionReason.jsError "boom") },
         { id := "c", name := "C", task := Except.ok "rc" }]).1.agents
        = [("a", { id := "a", name := "A", status := AgentStatus.completed,
                   progress := 100, output := some "ra", error := none }),
           ("b", { id := "b", name := "B", status := AgentStatus.failed,
                   progress := 0, output := none, error := some "boom" }),
           ("c", { id := "c", name := "C", status := AgentStatus.completed,
                   progress := 100, output := some "rc", error := none })] := by
  have h := c4_runParallelAgents_amended
    [{ id := "a", name := "A", task := Except.ok "ra" },
     { id := "b", name := "B", task := Except.error (RejectionReason.jsError "boom") },
     { id := "c", name := "C", task := Except.ok "rc" }]
    (by decide)
  exact ⟨h.1, h.2.1⟩
